import Mathlib

/-!
Verification of the libxmljs native-bridge layer: a shallow embedding of the
C++ sources (element.cc, attribute.cc, libxmljs.cc, node.h, document.h) and of
the registry / push-parser contracts, with theorems settling the frozen claims
about the specification.

Machine pointers are modelled as natural-number identifiers; the per-node
private slot (node->_private) becomes an explicit map from node identifiers to
an optional wrapper link; v8 argument lists become lists of a JsVal datatype;
fallible calls return Option.
-/

namespace Libxmljs

/-! ## Native node destruction notification (libxmljs.cc, on_libxml_destruct)

The destruct callback receives the freed node; xmlElementType is the libxml2
node-kind tag, CNode carries the fields the callback reads: the node's own
identifier (its address, for node->_private) and its document back-link
(node->doc).  The _private registry slots of all nodes are modelled as one map
from identifiers to an optional wrapper link; deleting the JsObj and nulling
the slot is removal from the map. -/

inductive XmlElementType
  | documentNode
  | elementNode
  | attributeNode
  | textNode
  | cdataSectionNode
  | commentNode
deriving DecidableEq, Repr

structure CNode where
  type : XmlElementType
  self : Nat
  doc : Nat
deriving DecidableEq, Repr

/-- Embedding of on_libxml_destruct (libxmljs.cc): switch on node->type; for
XML_DOCUMENT_NODE delete node->doc->_private and set it to NULL, for every
other kind delete node->_private and set it to NULL. -/
def on_libxml_destruct (priv : Nat → Option Nat) (n : CNode) : Nat → Option Nat :=
  match n.type with
  | XmlElementType.documentNode => fun i => if i = n.doc then none else priv i
  | _ => fun i => if i = n.self then none else priv i

/-! ## Identity Registry (LIBXMLJS_GET_MAYBE_BUILD) -/

structure Wrapper where
  wid : Nat
  node : Nat
deriving DecidableEq, Repr

structure Registry where
  map : List (Nat × Nat)
  nextW : Nat
deriving DecidableEq, Repr

def regFind : List (Nat × Nat) → Nat → Option Nat
  | [], _ => none
  | p :: ps, n => if p.1 = n then some p.2 else regFind ps n

/-- Modelled from the spec: the LIBXMLJS_GET_MAYBE_BUILD macro lives in
src/libxmljs.h, which is not among the repository files provided; per the
spec's Identity Registry contract, get_or_build(native_node) returns the
existing wrapper if one is registered for the node, else constructs a wrapper
and registers it before returning. -/
def getOrBuild (r : Registry) (n : Nat) : Wrapper × Registry :=
  match regFind r.map n with
  | some w => ({ wid := w, node := n }, r)
  | none =>
    ({ wid := r.nextW, node := n },
     { map := (n, r.nextW) :: r.map, nextW := r.nextW + 1 })

theorem getOrBuild_node (r : Registry) (n : Nat) : (getOrBuild r n).1.node = n := by
  unfold getOrBuild
  cases regFind r.map n <;> rfl

/-! ## Element name storage (element.cc: get_name, set_name, Element::New)

The mutable native store: every node identifier has a name cell; creation
(xmlNewDocNode) allocates a fresh identifier carrying the given name,
xmlNodeSetName overwrites the cell in place, get_name reads it.  A wrapper is
just an identifier into the shared store, so every wrapper of a node observes
the same cell. -/

structure XmlStore where
  names : Nat → String
  nextId : Nat

def xmlNewDocNode (s : XmlStore) (name : String) : Nat × XmlStore :=
  (s.nextId,
   { names := fun i => if i = s.nextId then name else s.names i,
     nextId := s.nextId + 1 })

def xmlNodeSetName (s : XmlStore) (nid : Nat) (name : String) : XmlStore :=
  { s with names := fun i => if i = nid then name else s.names i }

def get_name (s : XmlStore) (nid : Nat) : String := s.names nid

/-! ## Claim theorems: C1, C2, C8 -/

/-- C1: when the native engine frees a node, on_libxml_destruct removes the
registry mapping synchronously in the same call: the wrapper link stored in
the freed node's private slot is deleted and the slot set to null (here: the
slot maps to none in the returned state), every other slot is untouched, and
for a Document node the cleared slot is the document's shared slot
(doc->_private) rather than the node's own slot. -/
theorem c1_destruct_clears_slot (priv : Nat → Option Nat) (n : CNode) :
    (n.type = XmlElementType.documentNode →
      on_libxml_destruct priv n n.doc = none ∧
      ∀ i, i ≠ n.doc → on_libxml_destruct priv n i = priv i) ∧
    (n.type ≠ XmlElementType.documentNode →
      on_libxml_destruct priv n n.self = none ∧
      ∀ i, i ≠ n.self → on_libxml_destruct priv n i = priv i) := by
  obtain ⟨t, s, d⟩ := n
  cases t <;>
    refine ⟨fun h => ⟨?_, fun i hi => ?_⟩, fun h => ⟨?_, fun i hi => ?_⟩⟩ <;>
    simp_all [on_libxml_destruct]

theorem c1_witness :
    on_libxml_destruct (fun x => some x) ⟨XmlElementType.documentNode, 3, 7⟩ 7 = none ∧
    on_libxml_destruct (fun x => some x) ⟨XmlElementType.elementNode, 4, 8⟩ 4 = none :=
  ⟨((c1_destruct_clears_slot (fun x => some x) ⟨XmlElementType.documentNode, 3, 7⟩).1 rfl).1,
   ((c1_destruct_clears_slot (fun x => some x) ⟨XmlElementType.elementNode, 4, 8⟩).2
      (by simp)).1⟩

/-- C2: get_or_build is idempotent: a second lookup for the same live native
node returns exactly the wrapper the first lookup returned and leaves the
registry unchanged, and both wrappers are bound to that same native node (they
observably represent the same entity, as in the two LIBXMLJS_GET_MAYBE_BUILD
calls on the same xmlAttr in Attribute::New). -/
theorem c2_getOrBuild_idempotent (r : Registry) (n : Nat) :
    getOrBuild (getOrBuild r n).2 n = getOrBuild r n ∧
    (getOrBuild r n).1.node = n ∧
    (getOrBuild (getOrBuild r n).2 n).1.node = n := by
  refine ⟨?_, getOrBuild_node r n, getOrBuild_node _ n⟩
  unfold getOrBuild
  cases h : regFind r.map n with
  | some w => simp [h]
  | none => simp [h, regFind]

/-- C8: an element created with name x satisfies name() == x, and after
name(y) every subsequent name() read of that node (through any wrapper, since
all wrappers read the same shared store cell) returns y. -/
theorem c8_name_create_and_rename (s : XmlStore) (x y : String) :
    get_name (xmlNewDocNode s x).2 (xmlNewDocNode s x).1 = x ∧
    get_name (xmlNodeSetName (xmlNewDocNode s x).2 (xmlNewDocNode s x).1 y)
      (xmlNewDocNode s x).1 = y := by
  constructor <;> simp [get_name, xmlNewDocNode, xmlNodeSetName]

/-! ## Attribute storage (element.cc: get_attr / set_attr, Element::Attr)

An element's property list (xml_obj->properties) is the ordered list of
(name, value) pairs.  xmlSetProp resets the first property with a matching
name in place, else appends a new property at the end; xmlHasProp scans for
the first property with the given name.  Element::set_attr delegates to
Attribute::New, whose effect on the native node is the xmlSetProp call. -/

def xmlSetProp : List (String × String) → String → String → List (String × String)
  | [], nm, v => [(nm, v)]
  | p :: ps, nm, v => if p.1 = nm then (nm, v) :: ps else p :: xmlSetProp ps nm v

def xmlHasProp : List (String × String) → String → Option (String × String)
  | [], _ => none
  | p :: ps, nm => if p.1 = nm then some p else xmlHasProp ps nm

/-- Embedding of Element::get_attr: xmlHasProp, then the found attribute is
wrapped (LIBXMLJS_GET_MAYBE_BUILD) and returned, else v8::Null — here the
found property or none. -/
def get_attr (props : List (String × String)) (nm : String) : Option (String × String) :=
  xmlHasProp props nm

/-- v8 argument values as Element::Attr and Element::Child inspect them:
strings, numbers, plain objects (an ordered field list: GetPropertyNames
yields insertion order), and null. -/
inductive JsVal
  | vstr (s : String)
  | vnum (q : Int)
  | vobj (fields : List (String × String))
  | vnull
deriving DecidableEq, Repr

/-- ToObject on the non-string single argument of Element::Attr: an object
keeps its own enumerable fields, primitives yield no enumerable string-keyed
own fields to iterate. -/
def toObjectFields : JsVal → List (String × String)
  | JsVal.vobj fields => fields
  | _ => []

inductive AttrCallResult
  | gotAttr (a : Option (String × String))
  | retThis (props : List (String × String))
  | threw (msg : String)
deriving DecidableEq, Repr

def badAttrArgsMsg : String := "Bad argument(s): #attr(name) or #attr(\x7bname: value\x7d)"

/-- Iterating GetPropertyNames and calling element->set_attr on each field, in
order (the loop at the end of Element::Attr). -/
def setAttrAll (props fields : List (String × String)) : List (String × String) :=
  fields.foldl (fun ps kv => xmlSetProp ps kv.1 kv.2) props

/-- Embedding of Element::Attr (element.cc): switch on args.Length(); with one
argument, a string returns the named attribute and anything else is treated
as a hash whose fields are set in order; any other arity falls to the default
branch, which throws (LIBXMLJS_THROW_EXCEPTION, modelled from the spec's
usage-error contract as an immediately returned thrown result since
libxmljs.h is not among the repository files provided). -/
def ElementAttr (props : List (String × String)) (args : List JsVal) : AttrCallResult :=
  match args with
  | [a] =>
    match a with
    | JsVal.vstr nm => AttrCallResult.gotAttr (get_attr props nm)
    | other => AttrCallResult.retThis (setAttrAll props (toObjectFields other))
  | _ => AttrCallResult.threw badAttrArgsMsg

/-- The last value the field list assigns to key k, if any (the value that
must win after applying the fields in insertion order). -/
def lastValue : List (String × String) → String → Option String
  | [], _ => none
  | kv :: rest, k =>
    match lastValue rest k with
    | some v => some v
    | none => if kv.1 = k then some kv.2 else none

theorem hasProp_setProp (ps : List (String × String)) (nm v k : String) :
    xmlHasProp (xmlSetProp ps nm v) k =
      if k = nm then some (nm, v) else xmlHasProp ps k := by
  induction ps with
  | nil =>
    by_cases h : k = nm
    · subst h; simp [xmlSetProp, xmlHasProp]
    · simp [xmlSetProp, xmlHasProp, h, Ne.symm h]
  | cons p ps ih =>
    by_cases hp : p.1 = nm
    · by_cases hk : k = nm
      · subst hk; simp [xmlSetProp, xmlHasProp, hp]
      · have hpk : p.1 ≠ k := by rw [hp]; exact Ne.symm hk
        simp [xmlSetProp, xmlHasProp, hp, hk, Ne.symm hk, hpk]
    · by_cases hk : k = nm
      · subst hk; simp [xmlSetProp, xmlHasProp, hp, ih]
      · simp [xmlSetProp, xmlHasProp, hp, hk, ih]

theorem hasProp_setAttrAll (fields : List (String × String)) :
    ∀ (props : List (String × String)) (k : String),
      xmlHasProp (setAttrAll props fields) k =
        match lastValue fields k with
        | some v => some (k, v)
        | none => xmlHasProp props k := by
  induction fields with
  | nil => intro props k; simp [setAttrAll, lastValue]
  | cons kv rest ih =>
    intro props k
    obtain ⟨k1, v1⟩ := kv
    have hstep : setAttrAll props ((k1, v1) :: rest) =
        setAttrAll (xmlSetProp props k1 v1) rest := rfl
    rw [hstep, ih]
    cases h : lastValue rest k with
    | some v => simp [lastValue, h]
    | none =>
      by_cases hk : k1 = k
      · subst hk; simp [lastValue, h, hasProp_setProp]
      · simp [lastValue, h, hasProp_setProp, hk, Ne.symm hk]

/-! ## Positional child lookup (element.cc: get_child, Element::Child) -/

/-- Embedding of the loop in Element::get_child: i starts at 1 on the first
child and the cursor advances while the cursor is non-null and i < idx; a
null cursor yields v8::Null, otherwise the cursor node is wrapped. -/
def childSeek (idx : Int) : Int → List Nat → Option Nat
  | _, [] => none
  | i, c :: rest => if i < idx then childSeek idx (i + 1) rest else some c

def get_child (children : List Nat) (idx : Int) : Option Nat :=
  childSeek idx 1 children

theorem childSeek_eq_get? (idx : Int) (children : List Nat) :
    ∀ i : Int, childSeek idx i children = children.get? (idx - i).toNat := by
  induction children with
  | nil => intro i; simp [childSeek]
  | cons c rest ih =>
    intro i
    by_cases h : i < idx
    · have h1 : (idx - i).toNat = (idx - (i + 1)).toNat + 1 := by omega
      simp [childSeek, h, ih (i + 1), h1]
    · have h1 : (idx - i).toNat = 0 := by omega
      simp [childSeek, h, h1]

theorem get_child_eq_get? (children : List Nat) (idx : Int) :
    get_child children idx = children.get? (idx - 1).toNat :=
  childSeek_eq_get? idx children 1

/-! ## Element::Child call surface (element.cc) -/

structure ElemState where
  children : List Nat
  registry : Registry
deriving DecidableEq, Repr

inductive ChildCallResult
  | ok (w : Option Wrapper)
  | threw (msg : String)
deriving DecidableEq, Repr

def badChildArgMsg : String := "Bad argument: must provide #child() with a number"

/-- The numeric tail of Element::Child: element->get_child(idx), wrapping a
found child node through the registry (LIBXMLJS_GET_MAYBE_BUILD inside
get_child) or returning null. -/
def childBuild (st : ElemState) (idx : Int) : ChildCallResult × ElemState :=
  match get_child st.children idx with
  | none => (ChildCallResult.ok none, st)
  | some n =>
    let wr := getOrBuild st.registry n
    (ChildCallResult.ok (some wr.1), { st with registry := wr.2 })

/-- Embedding of Element::Child (element.cc): idx defaults to 1; with at
least one argument, a non-number throws (LIBXMLJS_THROW_EXCEPTION, modelled
from the spec's usage-error contract as an immediately returned thrown result
since libxmljs.h is not among the repository files provided) before any state
is touched, otherwise the argument's numeric value is used. -/
def ElementChild (st : ElemState) (args : List JsVal) : ChildCallResult × ElemState :=
  match args with
  | [] => childBuild st 1
  | a :: _ =>
    match a with
    | JsVal.vnum q => childBuild st q
    | _ => (ChildCallResult.threw badChildArgMsg, st)

/-! ## Text content (element.cc: get_content)

The native tree fragment xmlNodeGetContent walks: element nodes with an
ordered child list and text-like leaves (text, CDATA); its result is the
concatenation of all descendant text. -/

mutual
inductive XNode
  | xtext (s : String)
  | xelem (name : String) (kids : XNodeList)
inductive XNodeList
  | nil
  | cons (head : XNode) (tail : XNodeList)
end

mutual
def concatText : XNode → String
  | XNode.xtext s => s
  | XNode.xelem _ kids => concatTextList kids
def concatTextList : XNodeList → String
  | XNodeList.nil => ""
  | XNodeList.cons k ks => concatText k ++ concatTextList ks
end

def xmlNodeGetContent : XNode → String := concatText

/-- Embedding of Element::get_content: xmlNodeGetContent, then the content is
returned as a string when its first byte is nonzero (the string is nonempty),
else v8::Null. -/
def get_content (n : XNode) : Option String :=
  let content := xmlNodeGetContent n
  if content = "" then none else some content

/-! ## XPath find (element.cc: Element::find)

XPath evaluation is the external black box xmlXPathEval: it yields either no
result (null) or an xmlXPathObject whose type may or may not be a node set.
find wraps each node of a node-set result, in order, through the registry,
and yields an empty array in every other case. -/

inductive XPathObjectVal
  | nodeset (nodes : List Nat)
  | boolVal (b : Bool)
  | numVal (q : Int)
  | strVal (s : String)
deriving DecidableEq, Repr

/-- Wrapping the nodes of a node set in document order, threading the
registry (the LIBXMLJS_GET_MAYBE_BUILD loop of Element::find). -/
def buildWrappers : Registry → List Nat → List Wrapper × Registry
  | r, [] => ([], r)
  | r, n :: ns =>
    let wr := getOrBuild r n
    let rest := buildWrappers wr.2 ns
    (wr.1 :: rest.1, rest.2)

/-- Embedding of Element::find: a null evaluation result or a result whose
type is not XPATH_NODESET yields an empty array; a node set is wrapped
node by node in order. -/
def ElementFind (r : Registry) (evalXPath : String → Option XPathObjectVal)
    (xpath : String) : List Wrapper × Registry :=
  match evalXPath xpath with
  | none => ([], r)
  | some (XPathObjectVal.nodeset ns) => buildWrappers r ns
  | some _ => ([], r)

theorem buildWrappers_nodes (ns : List Nat) :
    ∀ r : Registry, ((buildWrappers r ns).1.map Wrapper.node) = ns := by
  induction ns with
  | nil => intro r; rfl
  | cons n rest ih =>
    intro r
    simp [buildWrappers, ih, getOrBuild_node]

theorem hasProp_none_iff (ps : List (String × String)) (nm : String) :
    xmlHasProp ps nm = none ↔ nm ∉ ps.map Prod.fst := by
  induction ps with
  | nil => simp [xmlHasProp]
  | cons p ps ih =>
    by_cases h : p.1 = nm
    · subst h; simp [xmlHasProp]
    · simp [xmlHasProp, h, ih, Ne.symm h]

theorem hasProp_some (ps : List (String × String)) (nm : String) :
    ∀ a, xmlHasProp ps nm = some a → a.1 = nm ∧ a ∈ ps := by
  induction ps with
  | nil => intro a ha; simp [xmlHasProp] at ha
  | cons p ps ih =>
    intro a ha
    by_cases h : p.1 = nm
    · have hpa : p = a := by simpa [xmlHasProp, h] using ha
      subst hpa
      exact ⟨h, by simp⟩
    · have ha2 : xmlHasProp ps nm = some a := by simpa [xmlHasProp, h] using ha
      obtain ⟨h1, h2⟩ := ih a ha2
      exact ⟨h1, by simp [h2]⟩

/-! ## Claim theorems: C4, C5, C6, C7, C9, C10 -/

/-- C4 counterexample: calling attr with two arguments, a name and a value,
does not create or overwrite the attribute — args.Length() == 2 falls to the
default branch of the switch in Element::Attr, which throws. -/
theorem c4_counterexample :
    ElementAttr [] [JsVal.vstr "a", JsVal.vstr "b"] = AttrCallResult.threw badAttrArgsMsg ∧
    ElementAttr [] [JsVal.vstr "a", JsVal.vstr "b"] ≠
      AttrCallResult.retThis (xmlSetProp [] "a" "b") :=
  ⟨rfl, fun h => AttrCallResult.noConfusion h⟩

/-- C4 (amended): calling attr with two arguments throws the usage exception
of Element::Attr's default branch; calling attr with a single map argument
sets each key-value pair in the map's insertion order through set_attr
(create-or-overwrite), with the last value winning per key. -/
theorem c4_attr_map_sets_in_order (props fields : List (String × String)) (k : String) :
    ElementAttr props [JsVal.vobj fields] = AttrCallResult.retThis (setAttrAll props fields) ∧
    xmlHasProp (setAttrAll props fields) k =
      (match lastValue fields k with
       | some v => some (k, v)
       | none => xmlHasProp props k) ∧
    ∀ a b rest, ElementAttr props (a :: b :: rest) = AttrCallResult.threw badAttrArgsMsg :=
  ⟨rfl, hasProp_setAttrAll fields props k, fun _ _ _ => rfl⟩

/-- C5 counterexample: child(0) does not return null on an element with one
child — the loop guard i < idx is false at i = 1, so the first child is
returned, contradicting the claim that child(0) returns null. -/
theorem c5_counterexample : get_child [7] 0 = some 7 ∧ get_child [7] 0 ≠ none := by
  decide

/-- C5 (amended): child(i) is a 1-based positional lookup among the direct
children that never throws: child(i) with i greater than the number of
children returns null, child(1) returns the first child whenever at least one
child exists, but child(i) for every i ≤ 1 (child(0) included) also returns
the first child when one exists rather than null. -/
theorem c5_child_positional (children : List Nat) (idx : Int) :
    (idx > (children.length : Int) → get_child children idx = none) ∧
    (idx ≤ 1 → get_child children idx = children.head?) ∧
    (∀ c rest, children = c :: rest → get_child children 1 = some c) := by
  refine ⟨fun h => ?_, fun h => ?_, fun c rest h => ?_⟩
  · rw [get_child_eq_get?]
    exact List.get?_eq_none.mpr (by omega)
  · rw [get_child_eq_get?]
    have h0 : (idx - 1).toNat = 0 := by omega
    rw [h0]
    exact List.get?_zero children
  · subst h
    rfl

theorem c5_witness : get_child [4, 5] 5 = none ∧ get_child [4, 5] 1 = some 4 :=
  ⟨(c5_child_positional [4, 5] 5).1 (by decide),
   (c5_child_positional [4, 5] 1).2.2 4 [5] rfl⟩

/-- C6: find returns an ordered sequence of wrappers: a failed evaluation
(null result) or a result that is not a node set yields the empty sequence
with the registry untouched and no exception (the embedding is a total
function into lists), and a node-set result is wrapped element by element in
the set's order. -/
theorem c6_find_degrades (r : Registry) (evalXPath : String → Option XPathObjectVal)
    (xpath : String) :
    (evalXPath xpath = none → ElementFind r evalXPath xpath = ([], r)) ∧
    (∀ res, evalXPath xpath = some res → (∀ ns, res ≠ XPathObjectVal.nodeset ns) →
      ElementFind r evalXPath xpath = ([], r)) ∧
    (∀ ns, evalXPath xpath = some (XPathObjectVal.nodeset ns) →
      ((ElementFind r evalXPath xpath).1.map Wrapper.node) = ns) := by
  refine ⟨fun h => ?_, fun res h hns => ?_, fun ns h => ?_⟩
  · simp [ElementFind, h]
  · cases res with
    | nodeset ns => exact absurd rfl (hns ns)
    | boolVal b => simp [ElementFind, h]
    | numVal q => simp [ElementFind, h]
    | strVal s => simp [ElementFind, h]
  · simp [ElementFind, h, buildWrappers_nodes]

theorem c6_witness :
    ElementFind ⟨[], 0⟩ (fun _ => some (XPathObjectVal.boolVal true)) "boolean(1)" =
      ([], ⟨[], 0⟩) :=
  (c6_find_degrades ⟨[], 0⟩ (fun _ => some (XPathObjectVal.boolVal true)) "boolean(1)").2.1
    (XPathObjectVal.boolVal true) rfl (fun _ h => XPathObjectVal.noConfusion h)

/-- C7: attr(name) returns null exactly when no attribute of that name is
present on the element; when the attribute is present, the returned wrapper
is for that attribute: it bears the requested name and is one of the
element's properties. -/
theorem c7_get_attr_missing_null (props : List (String × String)) (nm : String) :
    (get_attr props nm = none ↔ nm ∉ props.map Prod.fst) ∧
    (∀ a, get_attr props nm = some a → a.1 = nm ∧ a ∈ props) :=
  ⟨hasProp_none_iff props nm, hasProp_some props nm⟩

theorem c7_witness :
    ((("a", "1") : String × String).1 = "a" ∧ (("a", "1") : String × String) ∈
      [(("a", "1") : String × String)]) ∧
    get_attr [(("a", "1") : String × String)] "b" = none :=
  ⟨(c7_get_attr_missing_null [("a", "1")] "a").2 ("a", "1") (by decide),
   (c7_get_attr_missing_null [("a", "1")] "b").1.mpr (by decide)⟩

/-- C9: calling child with a non-numeric first argument throws the usage
exception immediately and locally, for that call only: the returned state is
exactly the incoming state, so neither the element's children, nor the
registry, nor any wrapper is mutated. -/
theorem c9_nonnumeric_child_throws (st : ElemState) (a : JsVal) (rest : List JsVal)
    (h : ∀ q : Int, a ≠ JsVal.vnum q) :
    ElementChild st (a :: rest) = (ChildCallResult.threw badChildArgMsg, st) := by
  cases a with
  | vnum q => exact absurd rfl (h q)
  | vstr s => rfl
  | vobj fields => rfl
  | vnull => rfl

theorem c9_witness :
    ElementChild ⟨[5], ⟨[], 0⟩⟩ [JsVal.vstr "x"] =
      (ChildCallResult.threw badChildArgMsg, ⟨[5], ⟨[], 0⟩⟩) :=
  c9_nonnumeric_child_throws ⟨[5], ⟨[], 0⟩⟩ (JsVal.vstr "x") []
    (fun _ h => JsVal.noConfusion h)

/-- C10: text() with no arguments returns null exactly when the element's
concatenated text content is the empty string, returns that non-empty string
otherwise, and an empty string is never a possible return value. -/
theorem c10_empty_text_is_null (n : XNode) :
    get_content n = (if concatText n = "" then none else some (concatText n)) ∧
    get_content n ≠ some "" := by
  constructor
  · rfl
  · simp only [get_content, xmlNodeGetContent]
    split_ifs with h
    · simp
    · simp [h]

theorem c10_witness :
    get_content (XNode.xelem "b" XNodeList.nil) = none ∧
    get_content (XNode.xelem "a" (XNodeList.cons (XNode.xtext "hi") XNodeList.nil)) ≠
      some "" := by
  constructor
  · have h := (c10_empty_text_is_null (XNode.xelem "b" XNodeList.nil)).1
    simpa [concatText, concatTextList] using h
  · exact (c10_empty_text_is_null _).2

/-! ## SAX streaming pipeline (sax_parser.cc is not among the repository
files provided: only the test spec/sax_parser.js is; the whole pipeline below
is therefore modelled from the spec)

The native engine's incremental scanner is modelled as a character-driven
state machine over the element/text core of XML: outside markup it
accumulates character data, inside markup (between a left and a right angle
bracket) it accumulates a tag; a completed construct yields one token.  The
SAX Event Bridge maps each token to one event in order; the Push Parser State
Machine feeds chunks to the scanner, emits the resulting events synchronously
and, when the last chunk is marked, signals end-of-input, which appends
exactly one terminal error event when the accumulated input is not validly
terminated (an incomplete construct remains). -/

inductive SaxEvent
  | startDocument
  | endDocument
  | startElement (name : String)
  | endElement (name : String)
  | characters (content : String)
  | error (msg : String)
deriving DecidableEq, Repr

inductive SaxTok
  | tagTok (content : List Char)
  | textTok (content : List Char)
deriving DecidableEq, Repr

inductive LexMode
  | inText (acc : List Char)
  | inTag (acc : List Char)
deriving DecidableEq, Repr

/-- Modelled from the spec: one step of the native engine's incremental
scanner on a single character. -/
def lexStep (m : LexMode) (c : Char) : LexMode × List SaxTok :=
  match m with
  | LexMode.inText acc =>
    if c = '<' then
      (LexMode.inTag [], if acc.isEmpty then [] else [SaxTok.textTok acc.reverse])
    else (LexMode.inText (c :: acc), [])
  | LexMode.inTag acc =>
    if c = '>' then (LexMode.inText [], [SaxTok.tagTok acc.reverse])
    else (LexMode.inTag (c :: acc), [])

/-- Modelled from the spec: feeding one chunk of characters to the scanner,
collecting the completed tokens in order. -/
def lexChunk (m : LexMode) : List Char → LexMode × List SaxTok
  | [] => (m, [])
  | c :: cs =>
    let st := lexStep m c
    let rest := lexChunk st.1 cs
    (rest.1, st.2 ++ rest.2)

/-- Modelled from the spec: the SAX Event Bridge's translation of one
completed token into one host-visible event, in order, with no batching or
reordering: a tag beginning with a slash closes an element, any other tag
opens one, character data arrives as a characters event. -/
def eventOfTok : SaxTok → SaxEvent
  | SaxTok.textTok cs => SaxEvent.characters (String.mk cs)
  | SaxTok.tagTok cs =>
    match cs with
    | [] => SaxEvent.startElement ""
    | c :: rest =>
      if c = '/' then SaxEvent.endElement (String.mk rest)
      else SaxEvent.startElement (String.mk cs)

def extraContentMsg : String := "Extra content at the end of the document\n"

/-- Modelled from the spec: the accumulated input is validly terminated when
no incomplete construct is pending in the scanner. -/
def cleanMode : LexMode → Bool
  | LexMode.inText acc => acc.isEmpty
  | LexMode.inTag _ => false

/-- Modelled from the spec: the push-parser session state — the scanner state
standing for accumulated-but-unconsumed bytes, and the finished flag. -/
structure PushSession where
  mode : LexMode
  finished : Bool
deriving DecidableEq, Repr

/-- Modelled from the spec: push(chunk, isLastChunk).  A finalized session
rejects the push; otherwise the chunk is fed to the engine, which emits zero
or more events synchronously; a marked last chunk additionally signals
end-of-input, emitting endDocument and, when the input is not validly
terminated, exactly one extra terminal error event. -/
def pushChunk (s : PushSession) (chunk : List Char) (isLast : Bool) :
    PushSession × List SaxEvent :=
  if s.finished then (s, [])
  else
    let r := lexChunk s.mode chunk
    let evs := r.2.map eventOfTok
    if isLast then
      ({ mode := r.1, finished := true },
       evs ++ [SaxEvent.endDocument] ++
         (if cleanMode r.1 then [] else [SaxEvent.error extraContentMsg]))
    else ({ mode := r.1, finished := false }, evs)

/-- Pushing every chunk of the list in order, the last one marked, and
concatenating the synchronously emitted events. -/
def runPush : PushSession → List (List Char) → List SaxEvent
  | _, [] => []
  | s, [c] => (pushChunk s c true).2
  | s, c :: c2 :: cs =>
    (pushChunk s c false).2 ++ runPush (pushChunk s c false).1 (c2 :: cs)

/-- Modelled from the spec: the full ordered event trace of a chunked push
parse — startDocument when parsing begins, then every event the pushes emit. -/
def pushParse (chunks : List (List Char)) : List SaxEvent :=
  SaxEvent.startDocument :: runPush { mode := LexMode.inText [], finished := false } chunks

/-- Modelled from the spec: whole-string SAX parsing of the same text —
startDocument, the bridge's events for every completed construct in order,
endDocument. -/
def saxParseString (text : List Char) : List SaxEvent :=
  SaxEvent.startDocument ::
    ((lexChunk (LexMode.inText []) text).2.map eventOfTok) ++ [SaxEvent.endDocument]

/-- Modelled from the spec: a document text is properly terminated when the
scanner consumes it leaving no incomplete construct. -/
def properlyTerminated (text : List Char) : Bool :=
  cleanMode (lexChunk (LexMode.inText []) text).1

theorem lexChunk_append (b : List Char) :
    ∀ (a : List Char) (m : LexMode),
      lexChunk m (a ++ b) =
        ((lexChunk (lexChunk m a).1 b).1,
         (lexChunk m a).2 ++ (lexChunk (lexChunk m a).1 b).2) := by
  intro a
  induction a with
  | nil => intro m; simp [lexChunk]
  | cons c cs ih =>
    intro m
    simp [lexChunk, ih, List.append_assoc]

theorem runPush_spec :
    ∀ chunks : List (List Char), chunks ≠ [] → ∀ m : LexMode,
      runPush { mode := m, finished := false } chunks =
        ((lexChunk m chunks.flatten).2.map eventOfTok) ++ [SaxEvent.endDocument] ++
          (if cleanMode (lexChunk m chunks.flatten).1 then []
           else [SaxEvent.error extraContentMsg]) := by
  intro chunks
  induction chunks with
  | nil => intro h; exact absurd rfl h
  | cons c cs ih =>
    intro _ m
    cases cs with
    | nil =>
      simp [runPush, pushChunk, List.flatten]
    | cons c2 cs2 =>
      have hne : (c2 :: cs2 : List (List Char)) ≠ [] := by simp
      have hpush : pushChunk ⟨m, false⟩ c false =
          (⟨(lexChunk m c).1, false⟩, (lexChunk m c).2.map eventOfTok) := by
        simp [pushChunk]
      have hjoin : (c :: c2 :: cs2).flatten = c ++ (c2 :: cs2).flatten := by
        simp [List.flatten]
      rw [show runPush ⟨m, false⟩ (c :: c2 :: cs2) =
            (pushChunk ⟨m, false⟩ c false).2 ++
              runPush (pushChunk ⟨m, false⟩ c false).1 (c2 :: cs2) from rfl,
          hpush, ih hne ((lexChunk m c).1), hjoin, lexChunk_append]
      simp [List.append_assoc]

/-- C3: pushing any splitting of a document text through the push parser with
the last chunk marked produces exactly the ordered SAX event sequence of
whole-string parsing of that text, except that an improperly terminated final
chunk additionally yields exactly one extra terminal error event; in
particular the sequences are identical whenever the text is properly
terminated. -/
theorem c3_chunked_push_eq_whole (text : List Char) (chunks : List (List Char))
    (hne : chunks ≠ []) (hjoin : chunks.flatten = text) :
    pushParse chunks =
      saxParseString text ++
        (if properlyTerminated text then [] else [SaxEvent.error extraContentMsg]) := by
  subst hjoin
  unfold pushParse saxParseString properlyTerminated
  rw [runPush_spec chunks hne (LexMode.inText [])]
  simp [List.append_assoc]

theorem c3_witness :
    pushParse [['<', 'a', '>', 'h'], ['i', '<', '/', 'a', '>']] =
      saxParseString ['<', 'a', '>', 'h', 'i', '<', '/', 'a', '>'] ++
        (if properlyTerminated ['<', 'a', '>', 'h', 'i', '<', '/', 'a', '>'] then []
         else [SaxEvent.error extraContentMsg]) :=
  c3_chunked_push_eq_whole ['<', 'a', '>', 'h', 'i', '<', '/', 'a', '>']
    [['<', 'a', '>', 'h'], ['i', '<', '/', 'a', '>']] (by decide) (by decide)

end Libxmljs
